import Mathlib

/-!
Verification development for the OneBot protocol client core
(src/modules/lib/core/base-client.ts: classes BaseClient and EventEmitter).

The stateful TypeScript client is shallowly embedded as a state machine:
a `ClientState` record and a step function `stepOne` over scheduler events
(an outbound `fetchApi` call, an inbound frame on the api or event channel,
a timer expiry, a socket close, a collaborator-issued connect, or a call to
`setFetchTimeout`).  Promise resolutions, socket writes and event
publications are recorded in append-only logs so that "resolves exactly
once", "no frame is written" and "publishes exactly one event" become
statements about those logs.  Closures (promise resolvers, timer callbacks
and the quick-operation actions attached to event payloads) are
defunctionalized: a resolver is the pair of its call identifier and the
timer handle it captured, a timer callback is the response object it would
synthesize, and an attached quick-operation closure is recorded as a
presence flag on the payload.
-/

namespace AdachiBot

/-- Wire shape of an api response frame (`ActionResponse` in the source):
`{ retcode, status, data, msg, wording, echo }`.  `data` is kept abstract as
an optional string; an absent or empty `echo` is the falsy case of the
source's `!data.echo` test. -/
structure ActionResponse where
  retcode : Int
  status : String
  data : Option String
  msg : String
  wording : String
  echo : String
deriving DecidableEq

/-- Wire shape of an outbound api request (`ActionRequest`): the source
sends `{ action, params: params || {}, echo }`; the serialized params are
kept abstract as a string. -/
structure ActionRequest where
  action : String
  params : String
  echo : String
deriving DecidableEq

/-- The synthetic response `fetchApi` resolves with when the client is
offline: `{ retcode: 401, status: "failed", data: null, msg: "Not_Login",
wording: "未登录", echo }`. -/
def offlineResponse (echo : String) : ActionResponse :=
  ⟨401, "failed", none, "Not_Login", "未登录", echo⟩

/-- The synthetic response the `fetchApi` timeout timer delivers:
`{ retcode: 408, status: "failed", data: null,
msg: "Action <action> Request_Timeout", wording: "Api <action> 请求超时",
echo }`. -/
def timeoutResponse (action : String) (echo : String) : ActionResponse :=
  ⟨408, "failed", none, "Action " ++ action ++ " Request_Timeout",
    "Api " ++ action ++ " 请求超时", echo⟩

/-- A pending timeout timer, i.e. a defunctionalized `setTimeout` handle:
its identifier, the echo its callback will deliver to, the synthesized
response the callback would pass to `emitApi`, and the delay it was armed
with (the value of `this.fetchTimeout` at `fetchApi` time). -/
structure TimerRec where
  tid : Nat
  echo : String
  payload : ActionResponse
  duration : Nat
deriving DecidableEq

/-- One element of a structured message (`{ type, data: { qq, text } }`);
`qq` is the pre-parsed numeric value of `Number.parseInt(el.data.qq)`, with
`none` for a missing or non-numeric value. -/
structure MsgElem where
  elType : String
  qq : Option Int
  text : String
deriving DecidableEq

/-- A message payload as it arrives: either a raw string (to be normalized)
or an already structured element list. -/
inductive MessageVal where
  | raw (s : String)
  | elems (l : List MsgElem)
deriving DecidableEq

/-- An inbound event-channel frame (`EventData`), with the taxonomy fields
the dispatcher reads, plus the fields the dispatcher itself writes on the
payload before publishing: `atMe`, and presence flags for the attached
quick-operation closures (`reply`, `recall`, `kick`, `ban`, `approve`). -/
structure EventFrame where
  echo : Option String := none
  post_type : String := ""
  meta_event_type : String := ""
  statusOnline : Bool := false
  sub_type : String := ""
  notice_type : String := ""
  request_type : String := ""
  user_id : Int := 0
  group_id : Int := 0
  message : MessageVal := .elems []
  atMe : Bool := false
  hasReply : Bool := false
  hasRecall : Bool := false
  hasKick : Bool := false
  hasBan : Bool := false
  hasApprove : Bool := false
deriving DecidableEq

/-- Inbound text on the api channel after the `isJsonString` check:
either malformed (dropped) or a parsed `ActionResponse`. -/
inductive ApiIn where
  | malformed
  | frame (d : ActionResponse)
deriving DecidableEq

/-- The whole client state: the `online` flag, own identity `uin`, the
configured `fetchTimeout`, fresh-identifier counters for calls and timers,
the one-shot correlation table `apiMap` (echo, listed resolvers; a resolver
is `(call id, captured timer id)`), the live timers, and the observation
logs: promise resolutions, frames written to the api socket, published
events, and the number of collaborator-initiated connects. -/
structure ClientState where
  online : Bool
  uin : Int
  fetchTimeout : Nat
  nextCid : Nat
  nextTid : Nat
  apiMap : List (String × List (Nat × Nat))
  timers : List TimerRec
  resolutions : List (Nat × ActionResponse)
  sent : List ActionRequest
  emitted : List (String × Option EventFrame)
  connectCount : Nat
deriving DecidableEq

/-- Initial client state: offline, empty directories and tables
(constructor of `BaseClient` with the configured timeout and identity). -/
def initState (w : Nat) (u : Int) : ClientState :=
  ⟨false, u, w, 0, 0, [], [], [], [], [], 0⟩

/-- Lookup in the correlation table (`this.apiMap.get(event)`, with a
missing key read as `[]` as in `this.apiMap.get(event) || []`). -/
def lookupL (e : String) : List (String × List (Nat × Nat)) → List (Nat × Nat)
  | [] => []
  | p :: tl => if p.1 = e then p.2 else lookupL e tl

/-- Key removal in the correlation table (`this.apiMap.delete(event)`). -/
def deleteL (e : String) : List (String × List (Nat × Nat)) → List (String × List (Nat × Nat))
  | [] => []
  | p :: tl => if p.1 = e then deleteL e tl else p :: deleteL e tl

/-- Registration in the correlation table (`EventEmitter.onApi`): push onto
the existing listener list for the echo, or create a singleton entry.  A
duplicate registration for the same echo is appended, not replacing. -/
def onApiL (e : String) (r : Nat × Nat) :
    List (String × List (Nat × Nat)) → List (String × List (Nat × Nat))
  | [] => [(e, [r])]
  | p :: tl => if p.1 = e then (p.1, p.2 ++ [r]) :: tl else p :: onApiL e r tl

/-- All resolvers of the correlation table, in table order. -/
def flatRes : List (String × List (Nat × Nat)) → List (Nat × Nat)
  | [] => []
  | p :: tl => p.2 ++ flatRes tl

/-- Append one publication to the emission log (one `this.emit(name, data)`
of the dispatcher; the payload is `none` for the argument `null`). -/
def pushEmit (n : String) (p : Option EventFrame) (s : ClientState) : ClientState :=
  { s with emitted := s.emitted ++ [(n, p)] }

/-- Run the resolver list of one `emitApi` delivery
(`listeners.slice().forEach(item => item(data))`): each listener is the
closure registered by `fetchApi`, which clears its captured timer and
resolves its promise with the delivered data. -/
def runResolvers (resp : ActionResponse) :
    List (Nat × Nat) → List TimerRec × List (Nat × ActionResponse) →
      List TimerRec × List (Nat × ActionResponse)
  | [], tr => tr
  | r :: rest, (ts, res) =>
      runResolvers resp rest
        (ts.filter (fun t0 => t0.tid != r.2), res ++ [(r.1, resp)])

/-- One `EventEmitter.emitApi(event, data)` delivery: invoke every resolver
registered for the echo on the delivered response, then delete the
correlation-table entry. -/
def emitApiM (e : String) (resp : ActionResponse) (s : ClientState) : ClientState :=
  let rr := runResolvers resp (lookupL e s.apiMap) (s.timers, s.resolutions)
  { s with timers := rr.1, resolutions := rr.2, apiMap := deleteL e s.apiMap }

/-- One `fetchApi(action, params)` call with the scheduler-chosen echo
(`Date.now().toString(36) + getRandomString(6)` in the source).  Offline:
resolve immediately with the synthetic 401 response — no socket write, no
pending entry, no timer.  Online: write `{action, params: params || {},
echo}` on the api socket, arm the timeout timer with the currently
configured window, and register the resolver under the echo. -/
def fetchCore (action : String) (params : Option String) (echo : String)
    (s : ClientState) : ClientState :=
  if s.online = false then
    { s with
      resolutions := s.resolutions ++ [(s.nextCid, offlineResponse echo)],
      nextCid := s.nextCid + 1 }
  else
    { s with
      sent := s.sent ++ [⟨action, params.getD "\x7b\x7d", echo⟩],
      timers := s.timers ++
        [⟨s.nextTid, echo, timeoutResponse action echo, s.fetchTimeout⟩],
      apiMap := onApiL echo (s.nextCid, s.nextTid) s.apiMap,
      nextCid := s.nextCid + 1,
      nextTid := s.nextTid + 1 }

/-- Handler of the api channel (`initApiWs`): drop non-JSON text, drop
frames with a falsy `echo` (webhook receipts), drop frames with
`retcode === 1`, and deliver everything else through `emitApi`. -/
def stepApiMsg (inp : ApiIn) (s : ClientState) : ClientState :=
  match inp with
  | .malformed => s
  | .frame d =>
      if d.echo = "" then s
      else if d.retcode = 1 then s
      else emitApiM d.echo d s

/-- Expiry of the timer with the given handle: if it is still armed, it is
spent and its callback delivers the synthesized timeout response through
`emitApi`; a cleared (or already fired) handle does nothing. -/
def stepFireTimer (t : Nat) (s : ClientState) : ClientState :=
  match s.timers.find? (fun tr => tr.tid == t) with
  | none => s
  | some tr =>
      emitApiM tr.echo tr.payload
        { s with timers := s.timers.filter (fun tr2 => tr2.tid != t) }

/-- Normalization delegated to the message-formatting collaborator.
Modelled from the spec: `toMessageRecepElem` lives in `@/modules/lib`
(outside the provided sources); the spec says a plain-text payload is
normalized into a structured element sequence, modelled as one text
element. -/
def toMessageRecepElem (msg : String) : List MsgElem :=
  [⟨"text", none, msg⟩]

/-- The structured elements of a frame's message after normalization. -/
def msgElems (f : EventFrame) : List MsgElem :=
  match f.message with
  | .raw _ => []
  | .elems l => l

/-- Message-branch preprocessing shared by every message sub-type:
normalize a string message into elements and compute the `atMe` flag by
scanning for an `at` element whose parsed `qq` equals own `uin`. -/
def msgBase (uin : Int) (f : EventFrame) : EventFrame :=
  let f1 :=
    match f.message with
    | .raw str => { f with message := .elems (toMessageRecepElem str) }
    | .elems _ => f
  { f1 with
    atMe := (msgElems f1).any (fun el => el.elType == "at" && el.qq == some uin) }

/-- Payload of a private-style message delivery: the preprocessed frame
with the `reply` closure attached. -/
def privMsgPayload (uin : Int) (f : EventFrame) : EventFrame :=
  { msgBase uin f with hasReply := true }

/-- Payload of a public group message delivery: the preprocessed frame with
the `reply`, `recall`, `kick` and `ban` closures attached. -/
def groupMsgPayload (uin : Int) (f : EventFrame) : EventFrame :=
  { msgBase uin f with
    hasReply := true, hasRecall := true, hasKick := true, hasBan := true }

/-- Write the online flag (`this.online = ...`). -/
def setOnlineS (b : Bool) (s : ClientState) : ClientState :=
  { s with online := b }

/-- The heartbeat handling: compare the embedded online flag with the
client's; on a change write the flag (`this.online = data.status.online`),
then if now online trigger the three refreshes (`get_version_info`,
`get_group_list`, `get_friend_list`, with scheduler-chosen echoes) and
publish `system.online`, else publish `system.offline`. -/
def heartbeatCore (f : EventFrame) (e1 e2 e3 : String) (s : ClientState) : ClientState :=
  if f.statusOnline ≠ s.online then
    if f.statusOnline then
      pushEmit "system.online" (some f)
        (fetchCore "get_friend_list" none e3
          (fetchCore "get_group_list" none e2
            (fetchCore "get_version_info" none e1 (setOnlineS f.statusOnline s))))
    else pushEmit "system.offline" (some f) (setOnlineS f.statusOnline s)
  else s

/-- The `meta_event` branch of the dispatcher: publish `system.lifecycle`
for lifecycle frames, run the heartbeat handling for heartbeat frames (the
two sub-type tests of the source are mutually exclusive on the single
`meta_event_type` field), and always publish the generic `system`. -/
def metaPart (f : EventFrame) (e1 e2 e3 : String) (s : ClientState) : ClientState :=
  pushEmit "system" (some f)
    (if f.meta_event_type = "lifecycle" then pushEmit "system.lifecycle" (some f) s
     else if f.meta_event_type = "heartbeat" then heartbeatCore f e1 e2 e3 s
     else s)

/-- The `message` branch of the dispatcher: preprocess, then publish the
specific sub-type event, the class generic and the global generic, all with
the same mutated payload object. -/
def messagePart (f : EventFrame) (s : ClientState) : ClientState :=
  if f.sub_type = "friend" ∨ f.sub_type = "group" then
    let p := privMsgPayload s.uin f
    let s1 :=
      if f.sub_type = "friend" then pushEmit "message.private.friend" (some p) s
      else pushEmit "message.private.group" (some p) s
    pushEmit "message" (some p) (pushEmit "message.private" (some p) s1)
  else if f.sub_type = "normal" ∨ f.sub_type = "anonymous" then
    let p := groupMsgPayload s.uin f
    let s1 :=
      if f.sub_type = "normal" then pushEmit "message.group.normal" (some p) s
      else pushEmit "message.group.anonymous" (some p) s
    pushEmit "message" (some p) (pushEmit "message.group" (some p) s1)
  else
    pushEmit "message" (some (msgBase s.uin f)) s

/-- The `notice` branch of the dispatcher, split into the private scope
(`friend_add`, `friend_recall`, per `checkNoticePrivateEvent`) and the
group scope with its kind switch; group-scope branches also publish the
`notice.group` generic, and every branch publishes the global `notice`. -/
def noticePart (f : EventFrame) (e1 e2 : String) (s : ClientState) : ClientState :=
  let s1 :=
    if f.notice_type = "friend_add" ∨ f.notice_type = "friend_recall" then
      if f.notice_type = "friend_add" then
        pushEmit "notice.friend.add" (some f) (fetchCore "get_friend_list" none e1 s)
      else pushEmit "notice.friend.recall" (some f) s
    else
      let sg :=
        if f.notice_type = "group_recall" then pushEmit "notice.group.recall" (some f) s
        else if f.notice_type = "group_increase" then
          let sA := pushEmit "notice.group.increase" (some f) s
          if f.user_id = s.uin then
            pushEmit "notice.group.increase" (some f)
              (fetchCore "get_group_list" none e2 sA)
          else pushEmit "notice.group.member_increase" (some f) sA
        else if f.notice_type = "group_decrease" then
          if f.sub_type = "kick_me" ∨ f.user_id = s.uin then
            pushEmit "notice.group.decrease" (some f)
              (fetchCore "get_group_list" none e2 s)
          else pushEmit "notice.group.member_decrease" (some f) s
        else if f.notice_type = "group_admin" then
          pushEmit "notice.group.admin" (some f) s
        else if f.notice_type = "group_upload" then
          pushEmit "notice.group.upload" (some f) s
        else if f.notice_type = "group_ban" then
          pushEmit "notice.group.ban" (some f) s
        else if f.notice_type = "notify" then
          let sx :=
            if f.sub_type = "lucky_king" then
              pushEmit "notice.group.lucky_king" (some f) s
            else s
          let sy :=
            if f.sub_type = "honor" then pushEmit "notice.group.honor" (some f) sx
            else sx
          if f.sub_type = "poke" then pushEmit "notice.group.poke" (some f) sy else sy
        else s
      pushEmit "notice.group" (some f) sg
  pushEmit "notice" (some f) s1

/-- The `request` branch of the dispatcher: attach the `approve` closure
for the friend or group requester kind and publish the specific event,
then publish the global `request` with the same payload. -/
def requestPart (f : EventFrame) (s : ClientState) : ClientState :=
  if f.request_type = "friend" then
    let p := { f with hasApprove := true }
    pushEmit "request" (some p) (pushEmit "request.friend" (some p) s)
  else if f.request_type = "group" then
    let p := { f with hasApprove := true }
    pushEmit "request" (some p) (pushEmit "request.group" (some p) s)
  else pushEmit "request" (some f) s

/-- Handler of the event channel (`initEventWs` message listener): frames
carrying an `echo` key are api receipts and are skipped; otherwise the
top-level `post_type` selects a branch (the four checks of the source are
mutually exclusive on the single `post_type` field). -/
def stepEventMsg (f : EventFrame) (e1 e2 e3 : String) (s : ClientState) : ClientState :=
  if f.echo.isSome then s
  else if f.post_type = "meta_event" then metaPart f e1 e2 e3 s
  else if f.post_type = "message" then messagePart f s
  else if f.post_type = "notice" then noticePart f e1 e2 s
  else if f.post_type = "request" then requestPart f s
  else s

/-- Handler of an event-socket close: while online, transition offline and
publish the synthetic `system.offline` with a `null` payload; otherwise do
nothing.  No reconnection is initiated. -/
def stepClose (s : ClientState) : ClientState :=
  if s.online then
    { s with online := false, emitted := s.emitted ++ [("system.offline", none)] }
  else s

/-- One scheduler event of the cooperative single-threaded model. -/
inductive Step where
  | fetch (action : String) (params : Option String) (echo : String)
  | apiMsg (inp : ApiIn)
  | eventMsg (f : EventFrame) (e1 e2 e3 : String)
  | fireTimer (t : Nat)
  | socketClose
  | connect
  | setFetchTimeout (ms : Nat)
deriving DecidableEq

/-- Dispatch one scheduler event. -/
def stepOne (st : Step) (s : ClientState) : ClientState :=
  match st with
  | .fetch a p e => fetchCore a p e s
  | .apiMsg i => stepApiMsg i s
  | .eventMsg f e1 e2 e3 => stepEventMsg f e1 e2 e3 s
  | .fireTimer t => stepFireTimer t s
  | .socketClose => stepClose s
  | .connect => { s with connectCount := s.connectCount + 1 }
  | .setFetchTimeout ms => { s with fetchTimeout := ms }

/-- Run a list of scheduler events in order. -/
def run (steps : List Step) (s : ClientState) : ClientState :=
  match steps with
  | [] => s
  | st :: rest => run rest (stepOne st s)

/-!
The generic pub/sub bus (`EventEmitter.on` / `once` / `off` / `emit`).
Listeners are identified by an opaque identity (a natural number); an entry
pairs the identity with its `once` flag, matching the `{ listener, once }`
records of the source.
-/

/-- One subscriber entry: listener identity plus its single-use flag. -/
structure Entry where
  listener : Nat
  once : Bool
deriving DecidableEq

/-- `EventEmitter.off`: remove the first entry whose listener matches by
identity (`findIndex` then `splice`); no match leaves the list unchanged. -/
def offFirst (l0 : Nat) : List Entry → List Entry
  | [] => []
  | en :: tl => if en.listener = l0 then tl else en :: offFirst l0 tl

/-- The live-array iteration of `EventEmitter.emit`: JavaScript `forEach`
caches the length at entry (the fuel), visits ascending indices of the
current array, skips indices past the current end, invokes the entry found
at the visited index, and immediately removes an invoked `once` entry via
`off` — mutating the very array being iterated.  Returns the invocation
sequence and the final listener array. -/
def emitGo : Nat → Nat → List Entry → List Entry × List Entry
  | 0, _, arr => ([], arr)
  | fuel + 1, k, arr =>
      match arr[k]? with
      | none => emitGo fuel (k + 1) arr
      | some item =>
          let arr1 := if item.once then offFirst item.listener arr else arr
          let r := emitGo fuel (k + 1) arr1
          (item :: r.1, r.2)

/-- One `emit` call on the listener list of one event name. -/
def emitRun (arr : List Entry) : List Entry × List Entry :=
  emitGo arr.length 0 arr

/-- A sequence of `emit` calls for the same event name: total invocation
sequence and final listener list. -/
def emitSeq : Nat → List Entry → List Entry × List Entry
  | 0, arr => ([], arr)
  | n + 1, arr =>
      let p := emitRun arr
      let q := emitSeq n p.2
      (p.1 ++ q.1, q.2)

/-- Number of publications of a given event name in an emission log. -/
def countName (n : String) (l : List (String × Option EventFrame)) : Nat :=
  (l.filter (fun q => q.1 == n)).length

/-- The projection of the state the correlator invariant depends on. -/
def INVcore (s : ClientState) :
    List (Nat × ActionResponse) × List (String × List (Nat × Nat)) × Nat ×
      List TimerRec :=
  (s.resolutions, s.apiMap, s.nextCid, s.timers)

/-- The reachable-state invariant of the request correlator: every call
identifier is registered at most once across the whole correlation table,
registered identifiers are not yet resolved, resolved identifiers are
resolved at most once, identifiers are below the freshness counter, and
every armed timer carries a synthesized timeout response for its own
echo. -/
structure INV (s : ClientState) : Prop where
  res_nodup : (s.resolutions.map Prod.fst).Nodup
  map_nodup : ((flatRes s.apiMap).map Prod.fst).Nodup
  map_res : ∀ c ∈ (flatRes s.apiMap).map Prod.fst, c ∉ s.resolutions.map Prod.fst
  map_lt : ∀ c ∈ (flatRes s.apiMap).map Prod.fst, c < s.nextCid
  res_lt : ∀ c ∈ s.resolutions.map Prod.fst, c < s.nextCid
  timer_shape : ∀ tr ∈ s.timers, ∃ a, tr.payload = timeoutResponse a tr.echo

/-- Facts tracked about one pending call `c` registered under echo `e`
while no genuine response for `e` is delivered: the state is invariant,
`c` is registered under no other echo, any resolution of `c` so far is a
synthesized timeout, and `c` is below the freshness counter. -/
structure Tracks (c : Nat) (e : String) (s : ClientState) : Prop where
  inv : INV s
  only_e : ∀ e2, c ∈ (lookupL e2 s.apiMap).map Prod.fst → e2 = e
  shaped : ∀ r, (c, r) ∈ s.resolutions → r.retcode = 408 ∧ r.status = "failed"
  lt : c < s.nextCid

/-- A heartbeat frame reporting the remote as online (witness fixture). -/
def hbFrame : EventFrame :=
  { post_type := "meta_event", meta_event_type := "heartbeat", statusOnline := true }

/-- A run that brings the demo client online, registering three pending
refresh calls with echoes ea, eb, ec (witness fixture). -/
def demoS : ClientState :=
  run [.eventMsg hbFrame "ea" "eb" "ec"] (initState 10 5)

/-- A genuine response frame for echo ea (witness fixture). -/
def demoResp : ActionResponse := ⟨0, "ok", some "v", "", "", "ea"⟩

/-- A self-join group-member-increase notice frame (witness fixture). -/
def giSelfFrame : EventFrame :=
  { post_type := "notice", notice_type := "group_increase", user_id := 5,
    group_id := 77 }

/-- A normal group message frame with a raw string payload (witness
fixture). -/
def gmFrame : EventFrame :=
  { post_type := "message", sub_type := "normal", group_id := 77,
    message := .raw "hi" }

/-!
Helper lemmas about the correlation table.
-/

theorem lookupL_sublist (e : String) (m : List (String × List (Nat × Nat))) :
    (lookupL e m).Sublist (flatRes m) := by
  induction m with
  | nil => simp [lookupL, flatRes]
  | cons p tl ih =>
      by_cases h : p.1 = e
      · simp only [lookupL, flatRes, if_pos h]
        exact List.sublist_append_left _ _
      · simp only [lookupL, flatRes, if_neg h]
        exact ih.trans (List.sublist_append_right _ _)

theorem lookupL_deleteL_self (e : String) (m : List (String × List (Nat × Nat))) :
    lookupL e (deleteL e m) = [] := by
  induction m with
  | nil => simp [lookupL, deleteL]
  | cons p tl ih =>
      by_cases h : p.1 = e
      · simpa [deleteL, if_pos h] using ih
      · simpa [deleteL, lookupL, if_neg h] using ih

theorem lookupL_deleteL_ne (e e' : String) (m : List (String × List (Nat × Nat)))
    (h : e' ≠ e) : lookupL e' (deleteL e m) = lookupL e' m := by
  induction m with
  | nil => simp [lookupL, deleteL]
  | cons p tl ih =>
      by_cases hp : p.1 = e
      · have hp' : p.1 ≠ e' := by rw [hp]; exact fun hc => h hc.symm
        simp [deleteL, lookupL, if_pos hp, if_neg hp', ih]
      · by_cases hq : p.1 = e'
        · simp [deleteL, lookupL, if_neg hp, if_pos hq]
        · simp [deleteL, lookupL, if_neg hp, if_neg hq, ih]

theorem flatRes_deleteL_sublist (e : String) (m : List (String × List (Nat × Nat))) :
    (flatRes (deleteL e m)).Sublist (flatRes m) := by
  induction m with
  | nil => simp [deleteL, flatRes]
  | cons p tl ih =>
      by_cases h : p.1 = e
      · simp only [deleteL, if_pos h]
        exact ih.trans (List.sublist_append_right _ _)
      · simp only [deleteL, flatRes, if_neg h]
        exact ih.append_left _

theorem nodup_delete_lookup_disjoint (e : String) (m : List (String × List (Nat × Nat)))
    (hnd : ((flatRes m).map Prod.fst).Nodup) (c : Nat)
    (hc : c ∈ (lookupL e m).map Prod.fst) :
    c ∉ (flatRes (deleteL e m)).map Prod.fst := by
  induction m with
  | nil => simp [lookupL] at hc
  | cons p tl ih =>
      have hnd' : ((p.2 ++ flatRes tl).map Prod.fst).Nodup := hnd
      rw [List.map_append, List.nodup_append] at hnd'
      obtain ⟨hnd1, hnd2, hdisj⟩ := hnd'
      by_cases h : p.1 = e
      · -- the found chunk is p.2; the remnant is deleteL e tl, inside flatRes tl
        simp only [lookupL, if_pos h] at hc
        simp only [deleteL, if_pos h]
        intro hmem
        have hsub : (flatRes (deleteL e tl)).map Prod.fst ⊆ (flatRes tl).map Prod.fst :=
          ((flatRes_deleteL_sublist e tl).map Prod.fst).subset
        exact hdisj hc (hsub hmem)
      · simp only [lookupL, if_neg h] at hc
        simp only [deleteL, flatRes, if_neg h, List.map_append, List.mem_append]
        rintro (hmem | hmem)
        · -- c is in the head chunk but also in a tail chunk found by lookup
          have : c ∈ (flatRes tl).map Prod.fst :=
            ((lookupL_sublist e tl).map Prod.fst).subset hc
          exact hdisj hmem this
        · exact ih hnd2 hc hmem

theorem lookupL_onApiL_self (e : String) (r : Nat × Nat)
    (m : List (String × List (Nat × Nat))) :
    lookupL e (onApiL e r m) = lookupL e m ++ [r] := by
  induction m with
  | nil => simp [onApiL, lookupL]
  | cons p tl ih =>
      by_cases h : p.1 = e
      · simp [onApiL, lookupL, if_pos h]
      · simp [onApiL, lookupL, if_neg h, ih]

theorem lookupL_onApiL_ne (e e' : String) (r : Nat × Nat)
    (m : List (String × List (Nat × Nat))) (h : e' ≠ e) :
    lookupL e' (onApiL e r m) = lookupL e' m := by
  induction m with
  | nil =>
      have hne : ¬ e = e' := fun hc => h hc.symm
      simp [onApiL, lookupL, hne]
  | cons p tl ih =>
      by_cases hp : p.1 = e
      · have hp' : p.1 ≠ e' := by rw [hp]; exact fun hc => h hc.symm
        simp [onApiL, lookupL, if_pos hp, if_neg hp']
      · by_cases hq : p.1 = e'
        · simp [onApiL, lookupL, if_neg hp, if_pos hq]
        · simp [onApiL, lookupL, if_neg hp, if_neg hq, ih]

theorem flatRes_onApiL_perm (e : String) (r : Nat × Nat)
    (m : List (String × List (Nat × Nat))) :
    (flatRes (onApiL e r m)).Perm (flatRes m ++ [r]) := by
  induction m with
  | nil =>
      simp only [onApiL, flatRes, List.append_nil, List.nil_append]
      exact List.Perm.refl _
  | cons p tl ih =>
      by_cases h : p.1 = e
      · simp only [onApiL, if_pos h, flatRes]
        rw [List.append_assoc, List.append_assoc]
        exact List.Perm.append_left p.2 List.perm_append_comm
      · simp only [onApiL, if_neg h, flatRes]
        rw [List.append_assoc]
        exact List.Perm.append_left p.2 ih

theorem nodup_lookup_lookup_eq (m : List (String × List (Nat × Nat)))
    (hnd : ((flatRes m).map Prod.fst).Nodup) (c : Nat) (e1 e2 : String)
    (h1 : c ∈ (lookupL e1 m).map Prod.fst) (h2 : c ∈ (lookupL e2 m).map Prod.fst) :
    e1 = e2 := by
  induction m with
  | nil => simp [lookupL] at h1
  | cons p tl ih =>
      have hnd' : ((p.2 ++ flatRes tl).map Prod.fst).Nodup := hnd
      rw [List.map_append, List.nodup_append] at hnd'
      obtain ⟨hnd1, hnd2, hdisj⟩ := hnd'
      by_cases hp1 : p.1 = e1
      · by_cases hp2 : p.1 = e2
        · rw [← hp1, hp2]
        · simp only [lookupL, if_pos hp1] at h1
          simp only [lookupL, if_neg hp2] at h2
          have : c ∈ (flatRes tl).map Prod.fst :=
            ((lookupL_sublist e2 tl).map Prod.fst).subset h2
          exact absurd this (hdisj h1)
      · by_cases hp2 : p.1 = e2
        · simp only [lookupL, if_neg hp1] at h1
          simp only [lookupL, if_pos hp2] at h2
          have : c ∈ (flatRes tl).map Prod.fst :=
            ((lookupL_sublist e1 tl).map Prod.fst).subset h1
          exact absurd this (hdisj h2)
        · simp only [lookupL, if_neg hp1] at h1
          simp only [lookupL, if_neg hp2] at h2
          exact ih hnd2 h1 h2

/-!
Characterization of one `emitApi` delivery.
-/

theorem runResolvers_snd (resp : ActionResponse) (rs : List (Nat × Nat))
    (ts : List TimerRec) (res : List (Nat × ActionResponse)) :
    (runResolvers resp rs (ts, res)).2 = res ++ rs.map (fun r => (r.1, resp)) := by
  induction rs generalizing ts res with
  | nil => simp [runResolvers]
  | cons r rest ih => simp [runResolvers, ih]

theorem runResolvers_fst_mem (resp : ActionResponse) (rs : List (Nat × Nat))
    (ts : List TimerRec) (res : List (Nat × ActionResponse)) (tr : TimerRec) :
    tr ∈ (runResolvers resp rs (ts, res)).1 ↔ tr ∈ ts ∧ ∀ r ∈ rs, tr.tid ≠ r.2 := by
  induction rs generalizing ts res with
  | nil => simp [runResolvers]
  | cons r rest ih =>
      simp only [runResolvers, ih, List.mem_filter, List.mem_cons, bne_iff_ne, ne_eq]
      constructor
      · rintro ⟨⟨hmem, hne⟩, hall⟩
        refine ⟨hmem, ?_⟩
        rintro r' (rfl | hr')
        · simpa using hne
        · exact hall r' hr'
      · rintro ⟨hmem, hall⟩
        refine ⟨⟨hmem, ?_⟩, fun r' hr' => hall r' (Or.inr hr')⟩
        simpa using hall r (Or.inl rfl)

theorem emitApiM_resolutions (e : String) (resp : ActionResponse) (s : ClientState) :
    (emitApiM e resp s).resolutions =
      s.resolutions ++ (lookupL e s.apiMap).map (fun r => (r.1, resp)) := by
  simp [emitApiM, runResolvers_snd]

theorem emitApiM_apiMap (e : String) (resp : ActionResponse) (s : ClientState) :
    (emitApiM e resp s).apiMap = deleteL e s.apiMap := rfl

theorem emitApiM_timers_mem (e : String) (resp : ActionResponse) (s : ClientState)
    (tr : TimerRec) :
    tr ∈ (emitApiM e resp s).timers ↔
      tr ∈ s.timers ∧ ∀ r ∈ lookupL e s.apiMap, tr.tid ≠ r.2 := by
  simpa [emitApiM] using
    runResolvers_fst_mem resp (lookupL e s.apiMap) s.timers s.resolutions tr

theorem emitApiM_online (e : String) (resp : ActionResponse) (s : ClientState) :
    (emitApiM e resp s).online = s.online := rfl

theorem emitApiM_nextCid (e : String) (resp : ActionResponse) (s : ClientState) :
    (emitApiM e resp s).nextCid = s.nextCid := rfl

theorem emitApiM_nextTid (e : String) (resp : ActionResponse) (s : ClientState) :
    (emitApiM e resp s).nextTid = s.nextTid := rfl

theorem emitApiM_sent (e : String) (resp : ActionResponse) (s : ClientState) :
    (emitApiM e resp s).sent = s.sent := rfl

theorem emitApiM_emitted (e : String) (resp : ActionResponse) (s : ClientState) :
    (emitApiM e resp s).emitted = s.emitted := rfl

/-!
Preservation of the correlator invariant.
-/

theorem INV_congr {s1 s2 : ClientState} (h : INVcore s1 = INVcore s2)
    (h2 : INV s2) : INV s1 := by
  have hres : s1.resolutions = s2.resolutions := congrArg Prod.fst h
  have hmap : s1.apiMap = s2.apiMap := congrArg (fun p => p.2.1) h
  have hcid : s1.nextCid = s2.nextCid := congrArg (fun p => p.2.2.1) h
  have htim : s1.timers = s2.timers := congrArg (fun p => p.2.2.2) h
  exact
    { res_nodup := hres ▸ h2.res_nodup
      map_nodup := hmap ▸ h2.map_nodup
      map_res := by rw [hres, hmap]; exact h2.map_res
      map_lt := by rw [hmap, hcid]; exact h2.map_lt
      res_lt := by rw [hres, hcid]; exact h2.res_lt
      timer_shape := htim ▸ h2.timer_shape }

theorem INV_init (w : Nat) (u : Int) : INV (initState w u) := by
  refine ⟨?_, ?_, ?_, ?_, ?_, ?_⟩ <;> simp [initState, flatRes]

theorem INV_fetchCore (a : String) (p : Option String) (e : String)
    {s : ClientState} (h : INV s) : INV (fetchCore a p e s) := by
  unfold fetchCore
  by_cases ho : s.online = false
  · rw [if_pos ho]
    refine ⟨?_, h.map_nodup, ?_, ?_, ?_, h.timer_shape⟩
    · dsimp only
      simp only [List.map_append, List.map_cons, List.map_nil]
      rw [List.nodup_append]
      refine ⟨h.res_nodup, List.nodup_singleton _, ?_⟩
      intro c hc hc'
      simp only [List.mem_singleton] at hc'
      subst hc'
      exact absurd (h.res_lt _ hc) (by omega)
    · dsimp only
      intro c hc
      simp only [List.map_append, List.mem_append, List.map_cons, List.map_nil,
        List.mem_singleton]
      rintro (hr | rfl)
      · exact h.map_res c hc hr
      · exact absurd (h.map_lt _ hc) (by omega)
    · dsimp only
      intro c hc
      have := h.map_lt c hc
      omega
    · dsimp only
      intro c hc
      simp only [List.map_append, List.mem_append, List.map_cons, List.map_nil,
        List.mem_singleton] at hc
      rcases hc with hr | rfl
      · have := h.res_lt c hr
        omega
      · omega
  · rw [if_neg ho]
    have hperm :
        ((flatRes (onApiL e (s.nextCid, s.nextTid) s.apiMap)).map Prod.fst).Perm
          ((flatRes s.apiMap).map Prod.fst ++ [s.nextCid]) := by
      have := (flatRes_onApiL_perm e (s.nextCid, s.nextTid) s.apiMap).map Prod.fst
      simpa using this
    refine ⟨h.res_nodup, ?_, ?_, ?_, ?_, ?_⟩
    · dsimp only
      rw [hperm.nodup_iff, List.nodup_append]
      refine ⟨h.map_nodup, List.nodup_singleton _, ?_⟩
      intro c hc hc'
      simp only [List.mem_singleton] at hc'
      subst hc'
      exact absurd (h.map_lt _ hc) (by omega)
    · dsimp only
      intro c hc
      rw [hperm.mem_iff, List.mem_append, List.mem_singleton] at hc
      rcases hc with hr | rfl
      · exact h.map_res c hr
      · intro hmem
        exact absurd (h.res_lt _ hmem) (by omega)
    · dsimp only
      intro c hc
      rw [hperm.mem_iff, List.mem_append, List.mem_singleton] at hc
      rcases hc with hr | rfl
      · have := h.map_lt c hr
        omega
      · omega
    · dsimp only
      intro c hc
      have := h.res_lt c hc
      omega
    · dsimp only
      intro tr htr
      simp only [List.mem_append, List.mem_singleton] at htr
      rcases htr with hold | rfl
      · exact h.timer_shape tr hold
      · exact ⟨a, rfl⟩

theorem INV_emitApiM (e : String) (resp : ActionResponse) {s : ClientState}
    (h : INV s) : INV (emitApiM e resp s) := by
  have hlookup_sub :
      ((lookupL e s.apiMap).map Prod.fst).Sublist ((flatRes s.apiMap).map Prod.fst) :=
    (lookupL_sublist e s.apiMap).map Prod.fst
  refine ⟨?_, ?_, ?_, ?_, ?_, ?_⟩
  · rw [emitApiM_resolutions]
    simp only [List.map_append, List.map_map]
    have hmap2 :
        ((lookupL e s.apiMap).map (Prod.fst ∘ fun r => (r.1, resp))) =
          (lookupL e s.apiMap).map Prod.fst := by
      simp
    rw [hmap2, List.nodup_append]
    refine ⟨h.res_nodup, h.map_nodup.sublist hlookup_sub, ?_⟩
    intro c hc hc'
    exact h.map_res c (hlookup_sub.subset hc') hc
  · rw [emitApiM_apiMap]
    exact h.map_nodup.sublist ((flatRes_deleteL_sublist e s.apiMap).map Prod.fst)
  · intro c hc
    rw [emitApiM_apiMap] at hc
    rw [emitApiM_resolutions]
    simp only [List.map_append, List.map_map, List.mem_append]
    have hcm : c ∈ (flatRes s.apiMap).map Prod.fst :=
      ((flatRes_deleteL_sublist e s.apiMap).map Prod.fst).subset hc
    rintro (hr | hr)
    · exact h.map_res c hcm hr
    · have hr' : c ∈ (lookupL e s.apiMap).map Prod.fst := by
        simpa using hr
      exact nodup_delete_lookup_disjoint e s.apiMap h.map_nodup c hr' hc
  · intro c hc
    rw [emitApiM_apiMap] at hc
    rw [emitApiM_nextCid]
    exact h.map_lt c (((flatRes_deleteL_sublist e s.apiMap).map Prod.fst).subset hc)
  · intro c hc
    rw [emitApiM_resolutions] at hc
    rw [emitApiM_nextCid]
    simp only [List.map_append, List.map_map, List.mem_append] at hc
    rcases hc with hr | hr
    · exact h.res_lt c hr
    · have hr' : c ∈ (lookupL e s.apiMap).map Prod.fst := by
        simpa using hr
      exact h.map_lt c (hlookup_sub.subset hr')
  · intro tr htr
    rw [emitApiM_timers_mem] at htr
    exact h.timer_shape tr htr.1

theorem INV_pushEmit (n : String) (p : Option EventFrame) {s : ClientState}
    (h : INV s) : INV (pushEmit n p s) :=
  ⟨h.res_nodup, h.map_nodup, h.map_res, h.map_lt, h.res_lt, h.timer_shape⟩

theorem INV_setOnlineS (b : Bool) {s : ClientState} (h : INV s) :
    INV (setOnlineS b s) :=
  ⟨h.res_nodup, h.map_nodup, h.map_res, h.map_lt, h.res_lt, h.timer_shape⟩

theorem INV_timersFilter (q : TimerRec → Bool) {s : ClientState} (h : INV s) :
    INV { s with timers := s.timers.filter q } :=
  { res_nodup := h.res_nodup
    map_nodup := h.map_nodup
    map_res := h.map_res
    map_lt := h.map_lt
    res_lt := h.res_lt
    timer_shape := fun tr htr => h.timer_shape tr (List.mem_of_mem_filter htr) }

set_option maxHeartbeats 2000000 in
theorem INV_stepOne (st : Step) {s : ClientState} (h : INV s) : INV (stepOne st s) := by
  cases st with
  | fetch a p e => exact INV_fetchCore a p e h
  | apiMsg i =>
      cases i with
      | malformed => exact h
      | frame d =>
          simp only [stepOne, stepApiMsg]
          split_ifs with h1 h2
          · exact h
          · exact h
          · exact INV_emitApiM _ _ h
  | eventMsg f e1 e2 e3 =>
      simp only [stepOne, stepEventMsg]
      split_ifs with h0 h1 h2 h3 h4
      · exact h
      · unfold metaPart heartbeatCore
        split_ifs <;>
          (repeat first
            | exact h
            | apply INV_pushEmit
            | apply INV_fetchCore
            | apply INV_setOnlineS)
      · unfold messagePart
        split_ifs <;> (repeat first | exact h | apply INV_pushEmit)
      · unfold noticePart
        split_ifs <;>
          (repeat first | exact h | apply INV_pushEmit | apply INV_fetchCore)
      · unfold requestPart
        split_ifs <;> (repeat first | exact h | apply INV_pushEmit)
      · exact h
  | fireTimer t =>
      simp only [stepOne, stepFireTimer]
      cases hf : s.timers.find? (fun tr => tr.tid == t) with
      | none => exact h
      | some tr => exact INV_emitApiM _ _ (INV_timersFilter _ h)
  | socketClose =>
      simp only [stepOne, stepClose]
      split_ifs
      · exact ⟨h.res_nodup, h.map_nodup, h.map_res, h.map_lt, h.res_lt, h.timer_shape⟩
      · exact h
  | connect =>
      exact ⟨h.res_nodup, h.map_nodup, h.map_res, h.map_lt, h.res_lt, h.timer_shape⟩
  | setFetchTimeout ms =>
      exact ⟨h.res_nodup, h.map_nodup, h.map_res, h.map_lt, h.res_lt, h.timer_shape⟩

theorem INV_run (steps : List Step) {s : ClientState} (h : INV s) :
    INV (run steps s) := by
  induction steps generalizing s with
  | nil => exact h
  | cons st rest ih => exact ih (INV_stepOne st h)

/-!
Lemmas about the subscriber bus.
-/

theorem offFirst_sublist (l0 : Nat) (l : List Entry) : (offFirst l0 l).Sublist l := by
  induction l with
  | nil => simp [offFirst]
  | cons en tl ih =>
      by_cases h : en.listener = l0
      · simp only [offFirst, if_pos h]
        exact List.sublist_cons_self en tl
      · simp only [offFirst, if_neg h]
        exact ih.cons₂ en

theorem countP_offFirst_match (l0 : Nat) (l : List Entry)
    (h : 0 < l.countP (fun en => en.listener == l0)) :
    (offFirst l0 l).countP (fun en => en.listener == l0) + 1 =
      l.countP (fun en => en.listener == l0) := by
  induction l with
  | nil => simp at h
  | cons en tl ih =>
      by_cases hm : en.listener = l0
      · simp [offFirst, if_pos hm, List.countP_cons, hm]
      · have hbeq : (en.listener == l0) = false := by simp [hm]
        simp only [offFirst, if_neg hm, List.countP_cons, hbeq, if_false,
          Nat.add_zero] at h ⊢
        exact ih h

theorem emitGo_countP (l0 : Nat) :
    ∀ (fuel k : Nat) (arr : List Entry) (b : Nat),
      arr.countP (fun en => en.listener == l0) ≤ b →
      (∀ en ∈ arr, en.listener = l0 → en.once = true) →
      (emitGo fuel k arr).1.countP (fun en => en.listener == l0) +
          (emitGo fuel k arr).2.countP (fun en => en.listener == l0) ≤ b ∧
        (∀ en ∈ (emitGo fuel k arr).2, en.listener = l0 → en.once = true) := by
  intro fuel
  induction fuel with
  | zero =>
      intro k arr b hb honce
      simpa [emitGo] using ⟨hb, honce⟩
  | succ fuel ih =>
      intro k arr b hb honce
      cases hk : arr[k]? with
      | none => simpa [emitGo, hk] using ih (k + 1) arr b hb honce
      | some item =>
          have hitem : item ∈ arr := by
            have := List.getElem?_eq_some_iff.mp hk
            obtain ⟨hlt, hget⟩ := this
            exact hget ▸ List.getElem_mem hlt
          by_cases hl : item.listener = l0
          · have ho : item.once = true := honce item hitem hl
            have harr1 : (if item.once then offFirst item.listener arr else arr) =
                offFirst l0 arr := by rw [ho, if_pos rfl, hl]
            have hpos : 0 < arr.countP (fun en => en.listener == l0) := by
              rw [List.countP_pos_iff]
              exact ⟨item, hitem, by simp [hl]⟩
            have hdec := countP_offFirst_match l0 arr hpos
            have hsub := offFirst_sublist l0 arr
            have honce1 : ∀ en ∈ offFirst l0 arr, en.listener = l0 → en.once = true :=
              fun en hen => honce en (hsub.subset hen)
            have hb1 : (offFirst l0 arr).countP (fun en => en.listener == l0) ≤ b - 1 := by
              omega
            obtain ⟨hcount, hfin⟩ := ih (k + 1) (offFirst l0 arr) (b - 1) hb1 honce1
            constructor
            · simp only [emitGo, hk, harr1]
              rw [List.countP_cons_of_pos _ _ (by simp [hl])]
              omega
            · simpa [emitGo, hk, harr1] using hfin
          · have hsub : (if item.once then offFirst item.listener arr else arr).Sublist arr := by
              split
              · exact offFirst_sublist item.listener arr
              · exact List.Sublist.refl arr
            have hb1 : (if item.once then offFirst item.listener arr else arr).countP
                (fun en => en.listener == l0) ≤ b :=
              le_trans (hsub.countP_le _) hb
            have honce1 : ∀ en ∈ (if item.once then offFirst item.listener arr else arr),
                en.listener = l0 → en.once = true :=
              fun en hen => honce en (hsub.subset hen)
            obtain ⟨hcount, hfin⟩ := ih (k + 1) _ b hb1 honce1
            constructor
            · simp only [emitGo, hk]
              rw [List.countP_cons_of_neg _ _ (by simp [hl])]
              exact hcount
            · simpa [emitGo, hk] using hfin

theorem emitSeq_countP (l0 : Nat) :
    ∀ (n : Nat) (arr : List Entry) (b : Nat),
      arr.countP (fun en => en.listener == l0) ≤ b →
      (∀ en ∈ arr, en.listener = l0 → en.once = true) →
      (emitSeq n arr).1.countP (fun en => en.listener == l0) +
          (emitSeq n arr).2.countP (fun en => en.listener == l0) ≤ b ∧
        (∀ en ∈ (emitSeq n arr).2, en.listener = l0 → en.once = true) := by
  intro n
  induction n with
  | zero =>
      intro arr b hb honce
      simpa [emitSeq] using ⟨hb, honce⟩
  | succ n ih =>
      intro arr b hb honce
      obtain ⟨h1, ho1⟩ := emitGo_countP l0 arr.length 0 arr b hb honce
      obtain ⟨h2, ho2⟩ :=
        ih (emitRun arr).2 ((emitRun arr).2.countP (fun en => en.listener == l0))
          (le_refl _) ho1
      constructor
      · simp only [emitSeq, List.countP_append]
        have h1' : (emitRun arr).1.countP (fun en => en.listener == l0) +
            (emitRun arr).2.countP (fun en => en.listener == l0) ≤ b := h1
        omega
      · simpa [emitSeq] using ho2

/-!
Stability of a pending call while no genuine response for its echo is
delivered.
-/

theorem Tracks_pushEmit (n : String) (p : Option EventFrame) {c : Nat} {e : String}
    {s : ClientState} (h : Tracks c e s) : Tracks c e (pushEmit n p s) :=
  ⟨INV_pushEmit n p h.inv, h.only_e, h.shaped, h.lt⟩

theorem Tracks_setOnlineS (b : Bool) {c : Nat} {e : String} {s : ClientState}
    (h : Tracks c e s) : Tracks c e (setOnlineS b s) :=
  ⟨INV_setOnlineS b h.inv, h.only_e, h.shaped, h.lt⟩

theorem Tracks_fetchCore (a : String) (p : Option String) (e0 : String) {c : Nat}
    {e : String} {s : ClientState} (h : Tracks c e s) :
    Tracks c e (fetchCore a p e0 s) := by
  refine ⟨INV_fetchCore a p e0 h.inv, ?_, ?_, ?_⟩
  · intro e2 hc
    unfold fetchCore at hc
    by_cases ho : s.online = false
    · rw [if_pos ho] at hc
      exact h.only_e e2 hc
    · rw [if_neg ho] at hc
      dsimp only at hc
      by_cases he : e2 = e0
      · subst he
        rw [lookupL_onApiL_self] at hc
        simp only [List.map_append, List.mem_append, List.map_cons, List.map_nil,
          List.mem_singleton] at hc
        rcases hc with hc | rfl
        · exact h.only_e e2 hc
        · exact absurd h.lt (by omega)
      · rw [lookupL_onApiL_ne e0 e2 _ _ he] at hc
        exact h.only_e e2 hc
  · intro r hr
    unfold fetchCore at hr
    by_cases ho : s.online = false
    · rw [if_pos ho] at hr
      dsimp only at hr
      rw [List.mem_append, List.mem_singleton] at hr
      rcases hr with hr | hr
      · exact h.shaped r hr
      · have : c = s.nextCid := congrArg Prod.fst hr
        exact absurd h.lt (by omega)
    · rw [if_neg ho] at hr
      exact h.shaped r hr
  · have hlt := h.lt
    unfold fetchCore
    by_cases ho : s.online = false
    · rw [if_pos ho]
      dsimp only
      omega
    · rw [if_neg ho]
      dsimp only
      omega

theorem Tracks_emitApiM (e0 : String) (resp : ActionResponse) {c : Nat} {e : String}
    {s : ClientState} (h : Tracks c e s)
    (hre : e0 = e → resp.retcode = 408 ∧ resp.status = "failed") :
    Tracks c e (emitApiM e0 resp s) := by
  refine ⟨INV_emitApiM e0 resp h.inv, ?_, ?_, ?_⟩
  · intro e2 hc
    rw [emitApiM_apiMap] at hc
    by_cases he : e2 = e0
    · subst he
      rw [lookupL_deleteL_self] at hc
      simp at hc
    · rw [lookupL_deleteL_ne e0 e2 _ he] at hc
      exact h.only_e e2 hc
  · intro r hr
    rw [emitApiM_resolutions, List.mem_append] at hr
    rcases hr with hr | hr
    · exact h.shaped r hr
    · rw [List.mem_map] at hr
      obtain ⟨r0, hr0, heq⟩ := hr
      have hc : c ∈ (lookupL e0 s.apiMap).map Prod.fst := by
        rw [List.mem_map]
        exact ⟨r0, hr0, congrArg Prod.fst heq⟩
      have he0 : e0 = e := h.only_e e0 hc
      have hr' : r = resp := by
        have := congrArg Prod.snd heq
        simpa using this.symm
      rw [hr']
      exact hre he0
  · rw [emitApiM_nextCid]
    exact h.lt

set_option maxHeartbeats 2000000 in
theorem Tracks_stepOne (st : Step) {c : Nat} {e : String} {s : ClientState}
    (h : Tracks c e s)
    (hok : ∀ d : ActionResponse, st = Step.apiMsg (.frame d) → d.echo = e →
      d.retcode = 1) :
    Tracks c e (stepOne st s) := by
  cases st with
  | fetch a p e0 => exact Tracks_fetchCore a p e0 h
  | apiMsg i =>
      cases i with
      | malformed => exact h
      | frame d =>
          simp only [stepOne, stepApiMsg]
          split_ifs with h1 h2
          · exact h
          · exact h
          · refine Tracks_emitApiM d.echo d h ?_
            intro he
            exact absurd (hok d rfl he) h2
  | eventMsg f e1 e2 e3 =>
      simp only [stepOne, stepEventMsg]
      split_ifs with h0 h1 h2 h3 h4
      · exact h
      · unfold metaPart heartbeatCore
        split_ifs <;>
          (repeat first
            | exact h
            | apply Tracks_pushEmit
            | apply Tracks_fetchCore
            | apply Tracks_setOnlineS)
      · unfold messagePart
        split_ifs <;> (repeat first | exact h | apply Tracks_pushEmit)
      · unfold noticePart
        split_ifs <;>
          (repeat first | exact h | apply Tracks_pushEmit | apply Tracks_fetchCore)
      · unfold requestPart
        split_ifs <;> (repeat first | exact h | apply Tracks_pushEmit)
      · exact h
  | fireTimer t =>
      simp only [stepOne, stepFireTimer]
      cases hf : s.timers.find? (fun tr => tr.tid == t) with
      | none => exact h
      | some tr =>
          have htr : tr ∈ s.timers := List.mem_of_find?_eq_some hf
          obtain ⟨a, ha⟩ := h.inv.timer_shape tr htr
          have hstep : Tracks c e { s with timers := s.timers.filter (fun tr2 => tr2.tid != t) } :=
            ⟨INV_timersFilter _ h.inv, h.only_e, h.shaped, h.lt⟩
          refine Tracks_emitApiM tr.echo tr.payload hstep ?_
          intro _
          rw [ha]
          exact ⟨rfl, rfl⟩
  | socketClose =>
      simp only [stepOne, stepClose]
      split_ifs
      · exact ⟨⟨h.inv.res_nodup, h.inv.map_nodup, h.inv.map_res, h.inv.map_lt,
          h.inv.res_lt, h.inv.timer_shape⟩, h.only_e, h.shaped, h.lt⟩
      · exact h
  | connect =>
      exact ⟨⟨h.inv.res_nodup, h.inv.map_nodup, h.inv.map_res, h.inv.map_lt,
        h.inv.res_lt, h.inv.timer_shape⟩, h.only_e, h.shaped, h.lt⟩
  | setFetchTimeout ms =>
      exact ⟨⟨h.inv.res_nodup, h.inv.map_nodup, h.inv.map_res, h.inv.map_lt,
        h.inv.res_lt, h.inv.timer_shape⟩, h.only_e, h.shaped, h.lt⟩

theorem Tracks_run (more : List Step) {c : Nat} {e : String} {s : ClientState}
    (h : Tracks c e s)
    (hok : ∀ st ∈ more, ∀ d : ActionResponse, st = Step.apiMsg (.frame d) →
      d.echo = e → d.retcode = 1) :
    Tracks c e (run more s) := by
  induction more generalizing s with
  | nil => exact h
  | cons st rest ih =>
      exact ih (Tracks_stepOne st h (hok st (List.mem_cons_self st rest)))
        (fun st2 hst2 => hok st2 (List.mem_cons_of_mem st hst2))

/-!
Claim theorems.
-/

/-- Claim C2: a `fetchApi` call made while the online flag is false
resolves immediately with the synthetic failed response whose code denotes
"not connected" (retcode 401, status "failed", msg "Not_Login"), writes no
frame to the socket, registers no pending entry in the correlation table,
and arms no timer. -/
theorem claim2_offline_reject (s : ClientState) (a : String) (p : Option String)
    (e : String) (h : s.online = false) :
    (fetchCore a p e s).resolutions = s.resolutions ++ [(s.nextCid, offlineResponse e)] ∧
    (offlineResponse e).retcode = 401 ∧
    (offlineResponse e).status = "failed" ∧
    (offlineResponse e).msg = "Not_Login" ∧
    (fetchCore a p e s).sent = s.sent ∧
    (fetchCore a p e s).apiMap = s.apiMap ∧
    (fetchCore a p e s).timers = s.timers := by
  unfold fetchCore
  rw [if_pos h]
  exact ⟨rfl, rfl, rfl, rfl, rfl, rfl, rfl⟩

/-- Witness for claim C2 at the initial (offline) state. -/
theorem claim2_witness :
    (initState 10 5).online = false ∧
    ((fetchCore "send_msg" none "e0" (initState 10 5)).resolutions =
        (initState 10 5).resolutions ++
          [((initState 10 5).nextCid, offlineResponse "e0")] ∧
      (offlineResponse "e0").retcode = 401 ∧
      (offlineResponse "e0").status = "failed" ∧
      (offlineResponse "e0").msg = "Not_Login" ∧
      (fetchCore "send_msg" none "e0" (initState 10 5)).sent = (initState 10 5).sent ∧
      (fetchCore "send_msg" none "e0" (initState 10 5)).apiMap =
        (initState 10 5).apiMap ∧
      (fetchCore "send_msg" none "e0" (initState 10 5)).timers =
        (initState 10 5).timers) :=
  ⟨rfl, claim2_offline_reject (initState 10 5) "send_msg" none "e0" rfl⟩

/-- Claim C6, evaluated at the failing input: with the listener list
holding a once-listener (identity 0) followed by a persistent listener
(identity 1), one `emit` invokes only the once-listener — the `splice`
performed by `off` inside the live `forEach` shifts the next listener onto
the already-visited index, so listener 1 is skipped (it stays registered
but receives nothing), contradicting the claim that no registered listener
is skipped. -/
theorem claim6_emit_skip_eval :
    emitRun [⟨0, true⟩, ⟨1, false⟩] = ([⟨0, true⟩], [⟨1, false⟩]) ∧
    (∀ en ∈ (emitRun [⟨0, true⟩, ⟨1, false⟩]).1, en.listener ≠ 1) := by
  decide

/-- Counterexample to claim C7 as stated: when the same listener identity
(7) is registered persistently and then with `once`, the `off` performed
after the once-entry's invocation removes the first identity match — the
persistent entry — so the once-entry survives and fires again on the next
emit: across two emits the once-flagged entry is invoked twice. -/
theorem claim7_counterexample :
    (⟨7, true⟩ : Entry) ∈ [(⟨7, false⟩ : Entry), ⟨7, true⟩] ∧
    ((emitSeq 2 [⟨7, false⟩, ⟨7, true⟩]).1.countP
        (fun en => en.listener == 7 && en.once)) = 2 := by
  decide

/-- Claim C7 (amended): a listener registered with `once` whose identity
occurs in at most one registration for the event name is invoked at most
once — never a second time — across any number of subsequent `emit` calls
for that event name. -/
theorem claim7_once_at_most_once (n : Nat) (arr : List Entry) (l0 : Nat)
    (hcount : arr.countP (fun en => en.listener == l0) ≤ 1)
    (honce : ∀ en ∈ arr, en.listener = l0 → en.once = true) :
    (emitSeq n arr).1.countP (fun en => en.listener == l0) ≤ 1 := by
  have h := emitSeq_countP l0 n arr 1 hcount honce
  omega

/-- Witness for claim C7 (amended): a single once-listener across three
emits. -/
theorem claim7_witness :
    (([⟨5, true⟩] : List Entry).countP (fun en => en.listener == 5) ≤ 1 ∧
      (∀ en ∈ ([⟨5, true⟩] : List Entry), en.listener = 5 → en.once = true)) ∧
    (emitSeq 3 [⟨5, true⟩]).1.countP (fun en => en.listener == 5) ≤ 1 :=
  ⟨⟨by decide, by decide⟩,
    claim7_once_at_most_once 3 [⟨5, true⟩] 5 (by decide) (by decide)⟩

/-- Claim C9: on a close of the event socket, if the online flag was true
it becomes false and exactly one `system.offline` event is published with
no (null) payload; if the flag was already false the state is unchanged and
nothing is published; in neither case does the client initiate a
reconnection (the connect counter is untouched). -/
theorem claim9_socket_close (s : ClientState) :
    (s.online = true →
      stepClose s =
        { s with online := false,
                 emitted := s.emitted ++ [("system.offline", none)] } ∧
      countName "system.offline" (stepClose s).emitted =
        countName "system.offline" s.emitted + 1) ∧
    (s.online = false → stepClose s = s) ∧
    (stepClose s).connectCount = s.connectCount := by
  refine ⟨fun h => ?_, fun h => ?_, ?_⟩
  · constructor
    · unfold stepClose
      rw [if_pos h]
    · unfold stepClose
      rw [if_pos h]
      simp [countName, List.filter_append]
  · unfold stepClose
    rw [if_neg (by simp [h])]
  · unfold stepClose
    by_cases h : s.online = true
    · rw [if_pos h]
    · rw [if_neg h]

/-- Claim C10: an api-channel frame that parses, carries a non-empty echo
and has retcode 1 is silently discarded — the handler leaves the state
(including the pending entry for that echo) completely unchanged; and as
long as every delivered frame for a pending call's echo has retcode 1, any
resolution that call receives is a synthesized timeout (retcode 408,
status "failed"). -/
theorem claim10_retcode_one_discarded (s : ClientState) (d : ActionResponse)
    (hecho : d.echo ≠ "") (hcode : d.retcode = 1) :
    stepApiMsg (.frame d) s = s ∧
    (∀ (w : Nat) (u : Int) (steps more : List Step) (c t : Nat) (e : String),
      (c, t) ∈ lookupL e (run steps (initState w u)).apiMap →
      (∀ st ∈ more, ∀ d2 : ActionResponse, st = Step.apiMsg (.frame d2) →
        d2.echo = e → d2.retcode = 1) →
      ∀ r, (c, r) ∈ (run more (run steps (initState w u))).resolutions →
        r.retcode = 408 ∧ r.status = "failed") := by
  constructor
  · simp only [stepApiMsg]
    rw [if_neg hecho, if_pos hcode]
  · intro w u steps more c t e hpend hok r hr
    have hinv : INV (run steps (initState w u)) := INV_run steps (INV_init w u)
    have hcmem : c ∈ (lookupL e (run steps (initState w u)).apiMap).map Prod.fst :=
      List.mem_map_of_mem Prod.fst hpend
    have hcflat : c ∈ (flatRes (run steps (initState w u)).apiMap).map Prod.fst :=
      ((lookupL_sublist e _).map Prod.fst).subset hcmem
    have htr : Tracks c e (run steps (initState w u)) :=
      { inv := hinv
        only_e := fun e2 hc2 =>
          nodup_lookup_lookup_eq _ hinv.map_nodup c e2 e hc2 hcmem
        shaped := fun r0 hr0 =>
          absurd (List.mem_map_of_mem Prod.fst hr0) (hinv.map_res c hcflat)
        lt := hinv.map_lt c hcflat }
    exact (Tracks_run more htr hok).shaped r hr

/-- Witness for claim C10: a retcode-1 frame for echo ea leaves the demo
state untouched. -/
theorem claim10_witness :
    ((⟨1, "async", none, "", "", "ea"⟩ : ActionResponse).echo ≠ "" ∧
      (⟨1, "async", none, "", "", "ea"⟩ : ActionResponse).retcode = 1) ∧
    stepApiMsg (.frame ⟨1, "async", none, "", "", "ea"⟩) demoS = demoS :=
  ⟨⟨by decide, rfl⟩,
    (claim10_retcode_one_discarded demoS ⟨1, "async", none, "", "", "ea"⟩
      (by decide) rfl).1⟩

/-- Claim C1: on any run, every call is resolved at most once; delivering a
matching response frame to a pending call resolves it with that frame,
removes the correlation-table entry for its echo and clears its timer, so
that a later expiry of that timer changes nothing and a second frame with
the same identifier produces no second resolution. -/
theorem claim1_exactly_one_resolution (w : Nat) (u : Int) (steps : List Step)
    (e : String) (c t : Nat) (d : ActionResponse)
    (hpend : (c, t) ∈ lookupL e (run steps (initState w u)).apiMap)
    (hecho : d.echo = e) (hne : e ≠ "") (hcode : d.retcode ≠ 1) :
    (∀ c0 : Nat,
      ((run steps (initState w u)).resolutions.map Prod.fst).count c0 ≤ 1) ∧
    (c, d) ∈ (stepApiMsg (.frame d) (run steps (initState w u))).resolutions ∧
    lookupL e (stepApiMsg (.frame d) (run steps (initState w u))).apiMap = [] ∧
    (stepApiMsg (.frame d) (run steps (initState w u))).timers.find?
      (fun tr => tr.tid == t) = none ∧
    stepFireTimer t (stepApiMsg (.frame d) (run steps (initState w u))) =
      stepApiMsg (.frame d) (run steps (initState w u)) ∧
    (∀ d2 : ActionResponse, d2.echo = e →
      (stepApiMsg (.frame d2)
          (stepApiMsg (.frame d) (run steps (initState w u)))).resolutions =
        (stepApiMsg (.frame d) (run steps (initState w u))).resolutions) := by
  subst hecho
  have hinv : INV (run steps (initState w u)) := INV_run steps (INV_init w u)
  have hs' : stepApiMsg (.frame d) (run steps (initState w u)) =
      emitApiM d.echo d (run steps (initState w u)) := by
    simp only [stepApiMsg]
    rw [if_neg hne, if_neg hcode]
  have hfind : (stepApiMsg (.frame d) (run steps (initState w u))).timers.find?
      (fun tr => tr.tid == t) = none := by
    rw [hs']
    apply List.find?_eq_none.mpr
    intro tr htr
    rw [emitApiM_timers_mem] at htr
    have := htr.2 (c, t) hpend
    simpa using this
  refine ⟨?_, ?_, ?_, hfind, ?_, ?_⟩
  · exact fun c0 => List.nodup_iff_count_le_one.mp hinv.res_nodup c0
  · rw [hs', emitApiM_resolutions]
    exact List.mem_append_right _ (List.mem_map_of_mem _ hpend)
  · rw [hs', emitApiM_apiMap, lookupL_deleteL_self]
  · simp only [stepFireTimer, hfind]
  · intro d2 he2
    rw [hs']
    simp only [stepApiMsg]
    by_cases h1 : d2.echo = ""
    · rw [if_pos h1]
    · rw [if_neg h1]
      by_cases h2 : d2.retcode = 1
      · rw [if_pos h2]
      · rw [if_neg h2, emitApiM_resolutions, he2, emitApiM_apiMap,
          lookupL_deleteL_self]
        simp

/-- Witness for claim C1: the demo run leaves call 0 pending under echo ea;
delivering the genuine response resolves it. -/
theorem claim1_witness :
    ((0, 0) ∈ lookupL "ea" (run [.eventMsg hbFrame "ea" "eb" "ec"]
        (initState 10 5)).apiMap ∧
      demoResp.echo = "ea" ∧ "ea" ≠ "" ∧ demoResp.retcode ≠ 1) ∧
    (0, demoResp) ∈ (stepApiMsg (.frame demoResp)
      (run [.eventMsg hbFrame "ea" "eb" "ec"] (initState 10 5))).resolutions :=
  ⟨⟨by decide, rfl, by decide, by decide⟩,
    (claim1_exactly_one_resolution 10 5 [.eventMsg hbFrame "ea" "eb" "ec"]
      "ea" 0 0 demoResp (by decide) rfl (by decide) (by decide)).2.1⟩

/-- Claim C3: a `fetchApi` call made while online arms exactly one timer
whose delay is the currently configured window, whose payload is the
synthesized failed response naming the requested action (retcode 408,
status "failed"), and registers the matching resolver; firing a live timer
resolves every call pending under its echo with that payload; and
`setFetchTimeout` only changes the window used by later calls — the timers
of calls already pending are untouched. -/
theorem claim3_timeout (s : ClientState) (a : String) (p : Option String)
    (e : String) (ho : s.online = true) :
    (fetchCore a p e s).timers =
      s.timers ++ [⟨s.nextTid, e, timeoutResponse a e, s.fetchTimeout⟩] ∧
    (s.nextCid, s.nextTid) ∈ lookupL e (fetchCore a p e s).apiMap ∧
    (timeoutResponse a e).status = "failed" ∧
    (timeoutResponse a e).retcode = 408 ∧
    (timeoutResponse a e).msg = "Action " ++ a ++ " Request_Timeout" ∧
    (∀ (s2 : ClientState) (c t : Nat) (tr : TimerRec),
      s2.timers.find? (fun tr2 => tr2.tid == t) = some tr →
      (c, t) ∈ lookupL tr.echo s2.apiMap →
      (c, tr.payload) ∈ (stepFireTimer t s2).resolutions) ∧
    (∀ ms : Nat, (stepOne (.setFetchTimeout ms) s).timers = s.timers ∧
      (stepOne (.setFetchTimeout ms) s).fetchTimeout = ms) := by
  have ho' : ¬ s.online = false := by simp [ho]
  refine ⟨?_, ?_, rfl, rfl, rfl, ?_, fun ms => ⟨rfl, rfl⟩⟩
  · unfold fetchCore
    rw [if_neg ho']
  · unfold fetchCore
    rw [if_neg ho']
    dsimp only
    rw [lookupL_onApiL_self]
    exact List.mem_append_right _ (List.mem_singleton.mpr rfl)
  · intro s2 c t tr hfind hpend
    simp only [stepFireTimer, hfind]
    rw [emitApiM_resolutions]
    exact List.mem_append_right _ (List.mem_map_of_mem _ hpend)

/-- Witness for claim C3 at the online demo state. -/
theorem claim3_witness :
    demoS.online = true ∧
    ((fetchCore "send_msg" none "zz" demoS).timers =
        demoS.timers ++
          [⟨demoS.nextTid, "zz", timeoutResponse "send_msg" "zz",
            demoS.fetchTimeout⟩] ∧
      (demoS.nextCid, demoS.nextTid) ∈
        lookupL "zz" (fetchCore "send_msg" none "zz" demoS).apiMap ∧
      (timeoutResponse "send_msg" "zz").status = "failed" ∧
      (timeoutResponse "send_msg" "zz").retcode = 408 ∧
      (timeoutResponse "send_msg" "zz").msg =
        "Action " ++ "send_msg" ++ " Request_Timeout" ∧
      (∀ (s2 : ClientState) (c t : Nat) (tr : TimerRec),
        s2.timers.find? (fun tr2 => tr2.tid == t) = some tr →
        (c, t) ∈ lookupL tr.echo s2.apiMap →
        (c, tr.payload) ∈ (stepFireTimer t s2).resolutions) ∧
      (∀ ms : Nat, (stepOne (.setFetchTimeout ms) demoS).timers = demoS.timers ∧
        (stepOne (.setFetchTimeout ms) demoS).fetchTimeout = ms)) :=
  ⟨by decide, claim3_timeout demoS "send_msg" none "zz" (by decide)⟩

/-- Witness for claim C9 at an online state. -/
theorem claim9_witness :
    (setOnlineS true (initState 10 5)).online = true ∧
    stepClose (setOnlineS true (initState 10 5)) =
      { setOnlineS true (initState 10 5) with
          online := false,
          emitted := (setOnlineS true (initState 10 5)).emitted ++
            [("system.offline", none)] } :=
  ⟨rfl, ((claim9_socket_close (setOnlineS true (initState 10 5))).1 rfl).1⟩

/-- Claim C4: for a heartbeat meta frame, on an offline-to-online change
the flag is updated, the three refreshes (version info, group directory,
friend directory) are issued and exactly one `system.online` (and no
`system.offline`) is published; on an online-to-offline change exactly one
`system.offline` (and no `system.online`) is published and nothing is sent;
with no change no transition event is published; in every case exactly one
generic `system` event is published. -/
theorem claim4_heartbeat (s : ClientState) (f : EventFrame) (e1 e2 e3 : String)
    (hech : f.echo = none) (hpt : f.post_type = "meta_event")
    (hmt : f.meta_event_type = "heartbeat") :
    (f.statusOnline = true → s.online = false →
      (stepEventMsg f e1 e2 e3 s).online = true ∧
      (stepEventMsg f e1 e2 e3 s).emitted =
        s.emitted ++ [("system.online", some f), ("system", some f)] ∧
      (stepEventMsg f e1 e2 e3 s).sent =
        s.sent ++ [⟨"get_version_info", "\x7b\x7d", e1⟩,
          ⟨"get_group_list", "\x7b\x7d", e2⟩,
          ⟨"get_friend_list", "\x7b\x7d", e3⟩] ∧
      countName "system.online" (stepEventMsg f e1 e2 e3 s).emitted =
        countName "system.online" s.emitted + 1 ∧
      countName "system.offline" (stepEventMsg f e1 e2 e3 s).emitted =
        countName "system.offline" s.emitted ∧
      countName "system" (stepEventMsg f e1 e2 e3 s).emitted =
        countName "system" s.emitted + 1) ∧
    (f.statusOnline = false → s.online = true →
      (stepEventMsg f e1 e2 e3 s).online = false ∧
      (stepEventMsg f e1 e2 e3 s).emitted =
        s.emitted ++ [("system.offline", some f), ("system", some f)] ∧
      (stepEventMsg f e1 e2 e3 s).sent = s.sent ∧
      countName "system.online" (stepEventMsg f e1 e2 e3 s).emitted =
        countName "system.online" s.emitted ∧
      countName "system.offline" (stepEventMsg f e1 e2 e3 s).emitted =
        countName "system.offline" s.emitted + 1 ∧
      countName "system" (stepEventMsg f e1 e2 e3 s).emitted =
        countName "system" s.emitted + 1) ∧
    (f.statusOnline = s.online →
      (stepEventMsg f e1 e2 e3 s).online = s.online ∧
      (stepEventMsg f e1 e2 e3 s).emitted = s.emitted ++ [("system", some f)] ∧
      (stepEventMsg f e1 e2 e3 s).sent = s.sent ∧
      countName "system.online" (stepEventMsg f e1 e2 e3 s).emitted =
        countName "system.online" s.emitted ∧
      countName "system.offline" (stepEventMsg f e1 e2 e3 s).emitted =
        countName "system.offline" s.emitted ∧
      countName "system" (stepEventMsg f e1 e2 e3 s).emitted =
        countName "system" s.emitted + 1) := by
  refine ⟨fun hso hon => ?_, fun hso hon => ?_, fun hss => ?_⟩
  · refine ⟨?_, ?_, ?_, ?_, ?_, ?_⟩ <;>
      simp [stepEventMsg, metaPart, heartbeatCore, fetchCore, pushEmit,
        setOnlineS, countName, hech, hpt, hmt, hso, hon]
  · refine ⟨?_, ?_, ?_, ?_, ?_, ?_⟩ <;>
      simp [stepEventMsg, metaPart, heartbeatCore, fetchCore, pushEmit,
        setOnlineS, countName, hech, hpt, hmt, hso, hon]
  · refine ⟨?_, ?_, ?_, ?_, ?_, ?_⟩ <;>
      simp [stepEventMsg, metaPart, heartbeatCore, pushEmit, countName,
        hech, hpt, hmt, hss]

/-- Witness for claim C4: the online transition of the demo heartbeat. -/
theorem claim4_witness :
    (hbFrame.echo = none ∧ hbFrame.post_type = "meta_event" ∧
      hbFrame.meta_event_type = "heartbeat" ∧ hbFrame.statusOnline = true ∧
      (initState 10 5).online = false) ∧
    ((stepEventMsg hbFrame "ea" "eb" "ec" (initState 10 5)).online = true ∧
      (stepEventMsg hbFrame "ea" "eb" "ec" (initState 10 5)).emitted =
        (initState 10 5).emitted ++
          [("system.online", some hbFrame), ("system", some hbFrame)] ∧
      (stepEventMsg hbFrame "ea" "eb" "ec" (initState 10 5)).sent =
        (initState 10 5).sent ++ [⟨"get_version_info", "\x7b\x7d", "ea"⟩,
          ⟨"get_group_list", "\x7b\x7d", "eb"⟩,
          ⟨"get_friend_list", "\x7b\x7d", "ec"⟩] ∧
      countName "system.online"
          (stepEventMsg hbFrame "ea" "eb" "ec" (initState 10 5)).emitted =
        countName "system.online" (initState 10 5).emitted + 1 ∧
      countName "system.offline"
          (stepEventMsg hbFrame "ea" "eb" "ec" (initState 10 5)).emitted =
        countName "system.offline" (initState 10 5).emitted ∧
      countName "system"
          (stepEventMsg hbFrame "ea" "eb" "ec" (initState 10 5)).emitted =
        countName "system" (initState 10 5).emitted + 1) :=
  ⟨⟨rfl, rfl, rfl, rfl, rfl⟩,
    (claim4_heartbeat (initState 10 5) hbFrame "ea" "eb" "ec" rfl rfl rfl).1
      rfl rfl⟩

/-- Claim C5: for a group-member-increase notice, if the joining identity
equals own identity the dispatcher publishes `notice.group.increase` twice
and `notice.group.member_increase` never, and triggers a group-directory
refresh; otherwise it publishes each of them exactly once and triggers no
refresh (no request is issued and the correlation table is untouched). -/
theorem claim5_group_increase (s : ClientState) (f : EventFrame) (e1 e2 e3 : String)
    (hech : f.echo = none) (hpt : f.post_type = "notice")
    (hnt : f.notice_type = "group_increase") :
    (f.user_id = s.uin →
      stepEventMsg f e1 e2 e3 s =
        pushEmit "notice" (some f) (pushEmit "notice.group" (some f)
          (pushEmit "notice.group.increase" (some f)
            (fetchCore "get_group_list" none e2
              (pushEmit "notice.group.increase" (some f) s)))) ∧
      countName "notice.group.increase" (stepEventMsg f e1 e2 e3 s).emitted =
        countName "notice.group.increase" s.emitted + 2 ∧
      countName "notice.group.member_increase"
          (stepEventMsg f e1 e2 e3 s).emitted =
        countName "notice.group.member_increase" s.emitted ∧
      (s.online = true →
        (stepEventMsg f e1 e2 e3 s).sent =
          s.sent ++ [⟨"get_group_list", "\x7b\x7d", e2⟩])) ∧
    (f.user_id ≠ s.uin →
      stepEventMsg f e1 e2 e3 s =
        pushEmit "notice" (some f) (pushEmit "notice.group" (some f)
          (pushEmit "notice.group.member_increase" (some f)
            (pushEmit "notice.group.increase" (some f) s))) ∧
      countName "notice.group.increase" (stepEventMsg f e1 e2 e3 s).emitted =
        countName "notice.group.increase" s.emitted + 1 ∧
      countName "notice.group.member_increase"
          (stepEventMsg f e1 e2 e3 s).emitted =
        countName "notice.group.member_increase" s.emitted + 1 ∧
      (stepEventMsg f e1 e2 e3 s).sent = s.sent ∧
      (stepEventMsg f e1 e2 e3 s).apiMap = s.apiMap ∧
      (stepEventMsg f e1 e2 e3 s).resolutions = s.resolutions) := by
  have hfe : ∀ (a : String) (p : Option String) (e0 : String) (s0 : ClientState),
      (fetchCore a p e0 s0).emitted = s0.emitted := by
    intro a p e0 s0
    unfold fetchCore
    split_ifs <;> rfl
  refine ⟨fun hid => ?_, fun hid => ?_⟩
  · refine ⟨?_, ?_, ?_, fun hon => ?_⟩
    · simp [stepEventMsg, noticePart, hech, hpt, hnt, hid]
    · simp [stepEventMsg, noticePart, pushEmit, countName, hech, hpt, hnt,
        hid, hfe]
    · simp [stepEventMsg, noticePart, pushEmit, countName, hech, hpt, hnt,
        hid, hfe]
    · simp [stepEventMsg, noticePart, pushEmit, fetchCore, hech, hpt, hnt,
        hid, hon]
  · refine ⟨?_, ?_, ?_, ?_, ?_, ?_⟩ <;>
      simp [stepEventMsg, noticePart, pushEmit, countName, hech, hpt, hnt, hid]

/-- Witness for claim C5: a self-join notice at the demo state. -/
theorem claim5_witness :
    (giSelfFrame.echo = none ∧ giSelfFrame.post_type = "notice" ∧
      giSelfFrame.notice_type = "group_increase" ∧
      giSelfFrame.user_id = demoS.uin) ∧
    countName "notice.group.increase"
        (stepEventMsg giSelfFrame "x1" "x2" "x3" demoS).emitted =
      countName "notice.group.increase" demoS.emitted + 2 :=
  ⟨⟨rfl, rfl, rfl, by decide⟩,
    ((claim5_group_increase demoS giSelfFrame "x1" "x2" "x3" rfl rfl rfl).1
      (by decide)).2.1⟩

/-- Claim C8: a normal group message frame is preprocessed once and then
published as `message.group.normal`, then `message.group`, then `message`,
in that order, each delivery carrying the same payload value, which bears
the populated `reply`, `recall`, `kick` and `ban` closures. -/
theorem claim8_group_normal_dispatch (s : ClientState) (f : EventFrame)
    (e1 e2 e3 : String) (hech : f.echo = none) (hpt : f.post_type = "message")
    (hst : f.sub_type = "normal") :
    (stepEventMsg f e1 e2 e3 s).emitted =
      s.emitted ++
        [("message.group.normal", some (groupMsgPayload s.uin f)),
          ("message.group", some (groupMsgPayload s.uin f)),
          ("message", some (groupMsgPayload s.uin f))] ∧
    (stepEventMsg f e1 e2 e3 s).sent = s.sent ∧
    (groupMsgPayload s.uin f).hasReply = true ∧
    (groupMsgPayload s.uin f).hasRecall = true ∧
    (groupMsgPayload s.uin f).hasKick = true ∧
    (groupMsgPayload s.uin f).hasBan = true := by
  refine ⟨?_, ?_, rfl, rfl, rfl, rfl⟩ <;>
    simp [stepEventMsg, messagePart, pushEmit, hech, hpt, hst]

/-- Witness for claim C8: the end-to-end group message of the spec. -/
theorem claim8_witness :
    (gmFrame.echo = none ∧ gmFrame.post_type = "message" ∧
      gmFrame.sub_type = "normal") ∧
    ((stepEventMsg gmFrame "x1" "x2" "x3" demoS).emitted =
      demoS.emitted ++
        [("message.group.normal", some (groupMsgPayload demoS.uin gmFrame)),
          ("message.group", some (groupMsgPayload demoS.uin gmFrame)),
          ("message", some (groupMsgPayload demoS.uin gmFrame))]) :=
  ⟨⟨rfl, rfl, rfl⟩,
    (claim8_group_normal_dispatch demoS gmFrame "x1" "x2" "x3" rfl rfl rfl).1⟩

end AdachiBot
